import Mathlib

/-!
Shallow embedding of the `depth` crate (a crates.io dependency-tree visualizer).

The embedding follows the Rust sources:
* `src/package.rs`: `Package`, `fetch_package_info`, `list_dependencies`;
* `src/dependency_graph.rs`: `DependencyGraph` (a petgraph `DiGraph`),
  `add_package_to_graph`, `add_dependency_edge`, `fetch_dependency_tree`,
  `print_dependencies_at_level`, `print_dependencies_recursive`;
* `src/lib.rs`: `visualize_dependency_tree`;
* `src/main.rs`: the command-line entry point (`levels + 1` adjustment).

The crates.io HTTP client (`crates_io_api::SyncClient`) is an external
collaborator; it is modeled as a pure oracle (`Registry`).  The fetcher is
instrumented with the list of registry round trips it performs so that
properties about network-call counts and error propagation can be stated.
Standard output is modeled as the list of lines the program would print.
-/

/-- The Rust `Package` struct from `src/package.rs`: name, homepage url,
declared `(name, version_requirement)` dependency tuples, and the
`starts_with("std")` heuristic flag. -/
structure Package where
  name : String
  url : String
  dependencies : List (String × String)
  internal : Bool
deriving DecidableEq

/-- Crate metadata returned by the registry (`crates_io_api::Crate`), restricted
to the fields the program reads: `id`, `max_version` and `homepage`. -/
structure CrateData where
  id : String
  maxVersion : String
  homepage : Option String
deriving DecidableEq

/-- One declared dependency as returned by `client.crate_dependencies`:
`crate_id`, version requirement `req`, and the `optional` flag. -/
structure DepInfo where
  crateId : String
  req : String
  optional : Bool
deriving DecidableEq

/-- Registry failures: the crates.io not-found lookup failure versus any other
API failure (`crates_io_api::Error`, kept opaque). -/
inductive RegError where
  | notFound (name : String)
  | api (msg : String)
deriving DecidableEq

/-- The external crates.io collaborator (`SyncClient`), as a pure oracle:
`get_crate` by name, and `crate_dependencies` by crate id and version. -/
structure Registry where
  getCrate : String → Except RegError CrateData
  crateDependencies : String → String → Except RegError (List DepInfo)

/-- One registry round trip performed by the fetcher together with its result;
the fetcher is instrumented with the sequence of these calls. -/
inductive RegCall where
  | getCrate (name : String) (result : Except RegError CrateData)
  | listDeps (id ver : String) (result : Except RegError (List DepInfo))

/-- The petgraph `DiGraph<(String, String), &str>` owned by `DependencyGraph`:
node weights are `(name, url)` pairs indexed by insertion position; every edge
carries the constant label "depends", so the label is omitted from the model. -/
structure DependencyGraph where
  nodes : List (String × String)
  edges : List (Nat × Nat)
deriving DecidableEq

/-- The mutable state threaded through `fetch_package_info`: the
`visited_packages` cache, the graph, and the instrumentation trace of
registry calls (in the order they were performed). -/
structure FetchState where
  visited : List (String × Package)
  graph : DependencyGraph
  calls : List RegCall

/-- `visited_packages.get(&package_name.0)`: association-list lookup modeling
the `HashMap<String, Package>` cache. -/
def cacheLookup : List (String × Package) → String → Option Package
  | [], _ => none
  | (n, p) :: rest, k => if n = k then some p else cacheLookup rest k

/-- The selection loop inside `list_dependencies` (`src/package.rs`): a
dependency is pushed when `!dep.optional && !optional`, or when
`optional && dep.optional`; otherwise it is skipped. -/
def filterDependencies : List DepInfo → Bool → List (String × String)
  | [], _ => []
  | dep :: rest, optional =>
    if !dep.optional && !optional then
      (dep.crateId, dep.req) :: filterDependencies rest optional
    else if optional && dep.optional then
      (dep.crateId, dep.req) :: filterDependencies rest optional
    else filterDependencies rest optional

/-- `list_dependencies` from `src/package.rs`: one `crate_dependencies` API
call, then the optional-flag selection loop. -/
def list_dependencies (reg : Registry) (crate_info : CrateData) (optional : Bool) :
    Except RegError (List (String × String)) :=
  match reg.crateDependencies crate_info.id crate_info.maxVersion with
  | Except.error e => Except.error e
  | Except.ok deps => Except.ok (filterDependencies deps optional)

/-- `DependencyGraph::add_dependency_edge`: push one "depends"-labeled edge. -/
def add_dependency_edge (g : DependencyGraph) (source target : Nat) : DependencyGraph :=
  DependencyGraph.mk g.nodes (g.edges ++ [(source, target)])

/-- The `for dependency in &package.dependencies` loop of
`add_package_to_graph`: each raw dependency tuple gets a fresh node and an
edge from `node_index`, unless a node with that exact weight already exists
(full scan of current node weights). -/
def add_dependency_nodes (node_index : Nat) :
    DependencyGraph → List (String × String) → DependencyGraph
  | g, [] => g
  | g, dep :: rest =>
    if dep ∈ g.nodes then add_dependency_nodes node_index g rest
    else
      add_dependency_nodes node_index
        (add_dependency_edge (DependencyGraph.mk (g.nodes ++ [dep]) g.edges)
          node_index g.nodes.length)
        rest

/-- `DependencyGraph::add_package_to_graph`: unconditionally `add_node` the
package's own `(name, url)` weight (petgraph `add_node` never deduplicates),
then scan-and-insert each raw dependency tuple.  Returns the new graph and the
index of the package's own node. -/
def add_package_to_graph (g : DependencyGraph) (package : Package) :
    DependencyGraph × Nat :=
  (add_dependency_nodes g.nodes.length
    (DependencyGraph.mk (g.nodes ++ [(package.name, package.url)]) g.edges)
    package.dependencies,
   g.nodes.length)

/-- The `for dependency in &dependencies` loop of `fetch_package_info`,
abstracted over the recursive call: `fetch_one` is the fetch at budget
`depth - 1`.  A child returning `Some` is re-inserted into the graph and
linked from `node_index`; any error aborts the loop immediately. -/
def fetch_children
    (fetch_one : String × String → FetchState → Except RegError (Option Package) × FetchState)
    (node_index : Nat) :
    List (String × String) → FetchState → Except RegError Unit × FetchState
  | [], st => (Except.ok (), st)
  | dep :: rest, st =>
    match fetch_one dep st with
    | (Except.error e, st1) => (Except.error e, st1)
    | (Except.ok none, st1) => fetch_children fetch_one node_index rest st1
    | (Except.ok (some child), st1) =>
      match add_package_to_graph st1.graph child with
      | (g, child_index) =>
        fetch_children fetch_one node_index rest
          (FetchState.mk st1.visited (add_dependency_edge g node_index child_index) st1.calls)

/-- `fetch_package_info` from `src/package.rs`, instrumented with the registry
calls it performs.  Cache hit returns immediately; otherwise `get_crate`, then
`list_dependencies` (inlined here so that its API call is recorded), then the
`Package` is built, cached, and added to the graph; if `depth > 1` the
dependencies are fetched recursively at `depth - 1` and linked. -/
def fetch_package_info (reg : Registry) (optional : Bool)
    (package_name : String × String) (st : FetchState) (depth : Nat) :
    Except RegError (Option Package) × FetchState :=
  match cacheLookup st.visited package_name.1 with
  | some package => (Except.ok (some package), st)
  | none =>
    match reg.getCrate package_name.1 with
    | Except.error e =>
      (Except.error e,
       FetchState.mk st.visited st.graph
         (st.calls ++ [RegCall.getCrate package_name.1 (Except.error e)]))
    | Except.ok crate_info =>
      let calls1 := st.calls ++ [RegCall.getCrate package_name.1 (Except.ok crate_info)]
      let homepage := (crate_info.homepage).getD ("")
      match reg.crateDependencies crate_info.id crate_info.maxVersion with
      | Except.error e =>
        (Except.error e,
         FetchState.mk st.visited st.graph
           (calls1 ++ [RegCall.listDeps crate_info.id crate_info.maxVersion (Except.error e)]))
      | Except.ok raw_deps =>
        let calls2 :=
          calls1 ++ [RegCall.listDeps crate_info.id crate_info.maxVersion (Except.ok raw_deps)]
        let dependencies := filterDependencies raw_deps optional
        let internal := (package_name.1).startsWith ("std")
        let package := Package.mk package_name.1 homepage dependencies internal
        let visited1 := (package_name.1, package) :: st.visited
        match add_package_to_graph st.graph package with
        | (g1, node_index) =>
          if _h : 1 < depth then
            match fetch_children (fun d s => fetch_package_info reg optional d s (depth - 1))
                node_index dependencies (FetchState.mk visited1 g1 calls2) with
            | (Except.error e, st5) => (Except.error e, st5)
            | (Except.ok _, st5) => (Except.ok (some package), st5)
          else (Except.ok (some package), FetchState.mk visited1 g1 calls2)
termination_by depth
decreasing_by simp_wf; omega

/-- A line of standard output: either the header from
`visualize_dependency_tree`, or one tree line from
`print_dependencies_recursive` (indentation width, ANSI color code, package
name, homepage url). -/
inductive OutLine where
  | header (packageName : String)
  | dep (indent color : Nat) (name url : String)
deriving DecidableEq

/-- `node_indices().find(|i| graph[i] == key)`: the first node index whose
weight equals `key`. -/
def findNodeIndex : List (String × String) → (String × String) → Option Nat
  | [], _ => none
  | w :: rest, key =>
    if w = key then some 0 else (findNodeIndex rest key).map (fun i => i + 1)

/-- Outgoing petgraph neighbors of node `i`: targets of edges with source `i`,
iterated newest-edge-first (petgraph stores per-node edge lists that way). -/
def successors (g : DependencyGraph) (i : Nat) : List Nat :=
  ((g.edges.filter (fun e => e.1 = i)).map (fun e => e.2)).reverse

/-- petgraph's `Dfs::next` loop: pop the stack until an undiscovered node is
found, mark it, push its undiscovered successors, and yield it.  The head of
the stack list is the top of the stack.  One unit of fuel is consumed per pop;
total pops are bounded by `1 + edges.length`, so the caller's fuel of
`edges.length + 2` never runs out. -/
def dfsRun (g : DependencyGraph) : Nat → List Nat → List Nat → List Nat
  | 0, _, _ => []
  | _ + 1, [], _ => []
  | fuel + 1, n :: rest, discovered =>
    if n ∈ discovered then dfsRun g fuel rest discovered
    else
      n :: dfsRun g fuel
        (((successors g n).filter (fun s => !((n :: discovered).contains s))).reverse ++ rest)
        (n :: discovered)

/-- `Dfs::new(&graph, start)` iterated to exhaustion by the
`while let Some(...) = dfs.next(...)` loop: the DFS preorder of nodes
reachable from `start` (the start node itself comes first). -/
def dfsOrder (g : DependencyGraph) (start : Nat) : List Nat :=
  dfsRun g (g.edges.length + 2) [start] []

/-- The DFS while-loop body of `print_dependencies_recursive`, abstracted over
the recursive call at `depth + 1` (`print_one`).  Each yielded node index is
rebuilt into a throwaway `Package` with placeholder dependencies, exactly as
the Rust code does. -/
def print_list (g : DependencyGraph)
    (print_one : Package → List Nat → List String → List OutLine × List Nat × List String) :
    List Nat → List Nat → List String → List OutLine × List Nat × List String
  | [], v, p => ([], v, p)
  | i :: rest, v, p =>
    let w := g.nodes.getD i ((""), (""))
    match print_one (Package.mk w.1 w.2 [((""), (""))] false) v p with
    | (out1, v1, p1) =>
      match print_list g print_one rest v1 p1 with
      | (out2, v2, p2) => (out1 ++ out2, v2, p2)

/-- `print_dependencies_recursive` from `src/dependency_graph.rs`.  Guarded by
`depth < max_depth`; locates the node by `(name, url)` weight; skips
already-visited node indices; always inserts the package name into the
printed set, and prints plus DFS-expands only when the name was newly
inserted or `max_depth > 2`.  Returns the emitted lines and both updated
visited sets. -/
def print_dependencies_recursive (g : DependencyGraph) (package : Package)
    (depth max_depth : Nat) (visited_nodes : List Nat) (printed_packages : List String) :
    List OutLine × List Nat × List String :=
  if _h : depth < max_depth then
    match findNodeIndex g.nodes (package.name, package.url) with
    | none => ([], visited_nodes, printed_packages)
    | some node_index =>
      if node_index ∈ visited_nodes then ([], visited_nodes, printed_packages)
      else
        let visited1 := node_index :: visited_nodes
        let printed1 :=
          if package.name ∈ printed_packages then printed_packages
          else package.name :: printed_packages
        if package.name ∉ printed_packages ∨ 2 < max_depth then
          match print_list g
              (fun pkg v p => print_dependencies_recursive g pkg (depth + 1) max_depth v p)
              (dfsOrder g node_index) visited1 printed1 with
          | (outs, v2, p2) =>
            (OutLine.dep (depth * 3) (if depth % 2 = 0 then 32 else 37)
              package.name package.url :: outs,
             v2, p2)
        else ([], visited1, printed1)
  else ([], visited_nodes, printed_packages)
termination_by max_depth - depth
decreasing_by simp_wf; omega

/-- `print_dependencies_at_level`: reset both visited sets, then run the
recursive print.  Only the emitted lines are returned. -/
def print_dependencies_at_level (g : DependencyGraph) (package : Package)
    (depth max_depth : Nat) : List OutLine :=
  (print_dependencies_recursive g package depth max_depth [] []).1

/-- The empty fetcher state: fresh cache, fresh graph, no calls yet. -/
def initState : FetchState := FetchState.mk [] (DependencyGraph.mk [] []) []

/-- `DependencyGraph::fetch_dependency_tree`: fresh `visited_packages` map,
homepage seed `""`, then `fetch_package_info` (with the `optional` flag passed
through, as `src/lib.rs` invokes it).  Returns the fetch result together with
the populated state. -/
def fetch_dependency_tree (reg : Registry) (package_name : String) (depth : Nat)
    (optional : Bool) : Except RegError (Option Package) × FetchState :=
  fetch_package_info reg optional (package_name, ("")) initState depth

/-- `visualize_dependency_tree` from `src/lib.rs`: fetch first; on success
print the header line and the tree; on `Ok(None)` only a stderr message is
produced (stderr is not modeled); on `Err` the error propagates and nothing is
printed to stdout.  The second component is the stdout line list. -/
def visualize_dependency_tree (reg : Registry) (package_name : String) (depth : Nat)
    (optional : Bool) : Except RegError Unit × List OutLine :=
  match fetch_dependency_tree reg package_name depth optional with
  | (Except.error e, _) => (Except.error e, [])
  | (Except.ok none, _) => (Except.ok (), [])
  | (Except.ok (some root_package), st) =>
    (Except.ok (),
     OutLine.header package_name ::
       print_dependencies_at_level st.graph root_package 0 depth)

/-- `main` from `src/main.rs`: the requested `--levels` count is incremented by
one before invoking the pipeline (same call for both values of `--optional`). -/
def mainRun (reg : Registry) (crate_name : String) (levels : Nat) (optional : Bool) :
    Except RegError Unit × List OutLine :=
  visualize_dependency_tree reg crate_name (levels + 1) optional

/-- Number of `get_crate` network calls for `name` recorded in a trace. -/
def countFetch : List RegCall → String → Nat
  | [], _ => 0
  | RegCall.getCrate n _ :: rest, name =>
    (if n = name then 1 else 0) + countFetch rest name
  | RegCall.listDeps _ _ _ :: rest, name => countFetch rest name

/-- The error carried by a registry call, if that call failed. -/
def callError : RegCall → Option RegError
  | RegCall.getCrate _ (Except.error e) => some e
  | RegCall.getCrate _ (Except.ok _) => none
  | RegCall.listDeps _ _ (Except.error e) => some e
  | RegCall.listDeps _ _ (Except.ok _) => none

/-- A trace in which every registry call succeeded. -/
def cleanCalls (l : List RegCall) : Prop := ∀ c ∈ l, callError c = none

/-- A trace that fails exactly at its final call: every earlier call
succeeded, the last call failed with `e`, and nothing follows it. -/
def endsWithError (l : List RegCall) (e : RegError) : Prop :=
  ∃ pre c, l = pre ++ [c] ∧ callError c = some e ∧ cleanCalls pre

/-- Success-or-failure status of a fetcher result, with the result payload
erased. -/
inductive FetchRes where
  | ok
  | fail (e : RegError)

/-- Status of an `Except` result. -/
def resStatus {α : Type} : Except RegError α → FetchRes
  | Except.ok _ => FetchRes.ok
  | Except.error e => FetchRes.fail e

/-- Invariant relating the fetcher state before and after a traversal step with
result status `status`: the call trace, graph nodes and graph edges only grow
by appending; cache entries are never removed or overwritten; the appended
trace fetches each name at most once and never fetches an already-cached name;
on success every appended call succeeded and every name fetched once is cached
afterwards; on failure the appended trace fails exactly at its final call. -/
def FetchInv (st : FetchState) (status : FetchRes) (st1 : FetchState) : Prop :=
  ∃ new, st1.calls = st.calls ++ new
    ∧ (∃ ns, st1.graph.nodes = st.graph.nodes ++ ns)
    ∧ (∃ es, st1.graph.edges = st.graph.edges ++ es)
    ∧ (∀ k v, cacheLookup st.visited k = some v → cacheLookup st1.visited k = some v)
    ∧ (∀ name, countFetch new name ≤ 1)
    ∧ (∀ name v, cacheLookup st.visited name = some v → countFetch new name = 0)
    ∧ (status = FetchRes.ok →
        cleanCalls new ∧
          ∀ name, countFetch new name = 1 → ∃ v, cacheLookup st1.visited name = some v)
    ∧ (∀ e, status = FetchRes.fail e → endsWithError new e)

/-- A registry that knows no crate at all: every lookup is a not-found error. -/
def emptyRegistry : Registry :=
  Registry.mk (fun n => Except.error (RegError.notFound n))
    (fun i _ => Except.error (RegError.api i))

/-- A registry with exactly one crate `name` (homepage `hp`) that has no
dependencies. -/
def singleRegistry (name : String) (hp : Option String) : Registry :=
  Registry.mk
    (fun n =>
      if n = name then Except.ok (CrateData.mk name ("1.0.0") hp)
      else Except.error (RegError.notFound n))
    (fun _ _ => Except.ok [])

/-- Metadata of the test crate A. -/
def crateA : CrateData := CrateData.mk ("A") ("1") (some ("urlA"))

/-- Metadata of the test crate B. -/
def crateB : CrateData := CrateData.mk ("B") ("1") (some ("urlB"))

/-- A non-optional declared dependency on B. -/
def depOnB : DepInfo := DepInfo.mk ("B") ("^1") false

/-- A non-optional declared dependency on A. -/
def depOnA : DepInfo := DepInfo.mk ("A") ("^1") false

/-- Cyclic test registry: crate A depends on B and crate B depends on A. -/
def cycleRegistry : Registry :=
  Registry.mk
    (fun n =>
      if n = ("A") then Except.ok crateA
      else if n = ("B") then Except.ok crateB
      else Except.error (RegError.notFound n))
    (fun id _ =>
      if id = ("A") then Except.ok [depOnB]
      else if id = ("B") then Except.ok [depOnA]
      else Except.error (RegError.api id))

/-- The `Package` record the fetcher builds for crate A of `cycleRegistry`. -/
def pkgA : Package := Package.mk ("A") ("urlA") [(("B"), ("^1"))] false

/-- The `Package` record the fetcher builds for crate B of `cycleRegistry`. -/
def pkgB : Package := Package.mk ("B") ("urlB") [(("A"), ("^1"))] false

/-- The complete call trace of a `cycleRegistry` traversal from A that reaches
B: each of the two crates is fetched exactly once. -/
def cycleTrace : List RegCall :=
  [RegCall.getCrate ("A") (Except.ok crateA),
   RegCall.listDeps ("A") ("1") (Except.ok [depOnB]),
   RegCall.getCrate ("B") (Except.ok crateB),
   RegCall.listDeps ("B") ("1") (Except.ok [depOnA])]

/-- A registry where crate A exists and declares a dependency on B, but B's
metadata lookup fails: fetching B aborts the traversal. -/
def failRegistry : Registry :=
  Registry.mk
    (fun n =>
      if n = ("A") then Except.ok crateA
      else Except.error (RegError.notFound n))
    (fun id _ =>
      if id = ("A") then Except.ok [depOnB]
      else Except.error (RegError.api id))

/-- Test graph with one node, used by print-side witnesses. -/
def gW : DependencyGraph := DependencyGraph.mk [(("a"), ("u"))] []

/-- Test package matching the single node of `gW`. -/
def pkgW : Package := Package.mk ("a") ("u") [] false

/-- The `Package` record an uncached `fetch_package_info` call builds from the
registry data: homepage defaulted to the empty string, dependencies filtered
by the `optional` mode, `internal` from the name-prefix heuristic. -/
def builtPackage (package_name : String × String) (crate_info : CrateData)
    (raw_deps : List DepInfo) (optional : Bool) : Package :=
  Package.mk package_name.1 ((crate_info.homepage).getD (""))
    (filterDependencies raw_deps optional) ((package_name.1).startsWith ("std"))

/-- The visited cache after a `cycleRegistry` traversal from A that reached B. -/
def visitedBA : List (String × Package) :=
  [(("B"), Package.mk ("B") ("urlB") [(("A"), ("^1"))] false),
   (("A"), Package.mk ("A") ("urlA") [(("B"), ("^1"))] false)]

/-- Final graph of the `cycleRegistry` traversal from A at depth exactly 2. -/
def gOuter1 : DependencyGraph :=
  DependencyGraph.mk
    [(("A"), ("urlA")), (("B"), ("^1")), (("B"), ("urlB")), (("A"), ("^1")), (("B"), ("urlB"))]
    [(0, 1), (2, 3), (0, 4)]

/-- Final graph of the `cycleRegistry` traversal from A at any depth above 2
(B's re-entrant fetch of A is answered from the cache and re-linked). -/
def gOuter2 : DependencyGraph :=
  DependencyGraph.mk
    [(("A"), ("urlA")), (("B"), ("^1")), (("B"), ("urlB")), (("A"), ("^1")),
     (("A"), ("urlA")), (("B"), ("urlB"))]
    [(0, 1), (2, 3), (2, 4), (0, 5)]

/-! ## Graph insertion (`add_package_to_graph`) -/

theorem add_dependency_nodes_count (node_index : Nat) :
    ∀ (deps : List (String × String)) (g : DependencyGraph) (d : String × String),
      d ∈ g.nodes →
      (add_dependency_nodes node_index g deps).nodes.count d = g.nodes.count d := by
  intro deps
  induction deps with
  | nil => intro g d _hd; rfl
  | cons dep rest ih =>
    intro g d hd
    by_cases hmem : dep ∈ g.nodes
    · simp only [add_dependency_nodes, if_pos hmem]
      exact ih g d hd
    · simp only [add_dependency_nodes, if_neg hmem]
      have hdd : d ≠ dep := by
        intro h
        exact hmem (h ▸ hd)
      have hstep := ih
        (add_dependency_edge (DependencyGraph.mk (g.nodes ++ [dep]) g.edges)
          node_index g.nodes.length) d (by
            simp only [add_dependency_edge]
            exact List.mem_append_left _ hd)
      rw [hstep]
      simp only [add_dependency_edge]
      rw [List.count_append]
      have : List.count d [dep] = 0 := by
        apply List.count_eq_zero.mpr
        simp only [List.mem_singleton]
        exact hdd
      omega

theorem add_dependency_nodes_append (node_index : Nat) :
    ∀ (deps : List (String × String)) (g : DependencyGraph),
      ∃ ns es, (add_dependency_nodes node_index g deps).nodes = g.nodes ++ ns ∧
        (add_dependency_nodes node_index g deps).edges = g.edges ++ es := by
  intro deps
  induction deps with
  | nil => intro g; exact ⟨[], [], by simp [add_dependency_nodes], by simp [add_dependency_nodes]⟩
  | cons dep rest ih =>
    intro g
    by_cases hmem : dep ∈ g.nodes
    · simp only [add_dependency_nodes, if_pos hmem]
      exact ih g
    · simp only [add_dependency_nodes, if_neg hmem]
      obtain ⟨ns, es, h1, h2⟩ := ih
        (add_dependency_edge (DependencyGraph.mk (g.nodes ++ [dep]) g.edges)
          node_index g.nodes.length)
      refine ⟨[dep] ++ ns, [(node_index, g.nodes.length)] ++ es, ?_, ?_⟩
      · rw [h1]; simp [add_dependency_edge]
      · rw [h2]; simp [add_dependency_edge]

theorem add_package_to_graph_append (g : DependencyGraph) (package : Package) :
    ∃ ns es,
      (add_package_to_graph g package).1.nodes
          = g.nodes ++ [(package.name, package.url)] ++ ns ∧
        (add_package_to_graph g package).1.edges = g.edges ++ es ∧
        (add_package_to_graph g package).2 = g.nodes.length := by
  obtain ⟨ns, es, h1, h2⟩ := add_dependency_nodes_append g.nodes.length package.dependencies
    (DependencyGraph.mk (g.nodes ++ [(package.name, package.url)]) g.edges)
  exact ⟨ns, es, h1, h2, rfl⟩

/-- C3 (counterexample): `add_package_to_graph` inserts the package's own
`(name, url)` node unconditionally, so two calls with the same package leave
two structurally identical nodes in the graph; the claimed no-duplicate
invariant fails. -/
theorem add_package_to_graph_duplicate_nodes :
    (add_package_to_graph (add_package_to_graph (DependencyGraph.mk [] []) pkgW).1 pkgW).1.nodes
        = [(("a"), ("u")), (("a"), ("u"))]
      ∧ ¬ (add_package_to_graph
            (add_package_to_graph (DependencyGraph.mk [] []) pkgW).1 pkgW).1.nodes.Nodup := by
  exact ⟨by decide, by decide⟩

/-- C3 (amended): the full-scan duplicate check in `add_package_to_graph`
guards only the raw dependency-tuple nodes; the package's own `(name, url)`
node is appended unconditionally.  Hence a call never duplicates a weight that
is already present except through that unconditional own-node insertion: the
first `length + 1` nodes afterwards are exactly the old nodes plus the own
node, and the multiplicity of any weight present at that point is unchanged by
the dependency-node scan. -/
theorem add_package_to_graph_dedups_dependency_nodes
    (g : DependencyGraph) (package : Package) (d : String × String)
    (hd : d ∈ g.nodes ++ [(package.name, package.url)]) :
    (add_package_to_graph g package).1.nodes.take (g.nodes.length + 1)
        = g.nodes ++ [(package.name, package.url)]
      ∧ (add_package_to_graph g package).1.nodes.count d
        = (g.nodes ++ [(package.name, package.url)]).count d := by
  constructor
  · obtain ⟨ns, es, h1, _h2, _h3⟩ := add_package_to_graph_append g package
    rw [h1, List.append_assoc]
    have hlen : (g.nodes ++ [(package.name, package.url)]).length = g.nodes.length + 1 := by
      simp
    rw [← List.append_assoc, ← hlen, List.take_left]
  · have := add_dependency_nodes_count g.nodes.length package.dependencies
      (DependencyGraph.mk (g.nodes ++ [(package.name, package.url)]) g.edges) d hd
    exact this

/-- Witness for the amended C3 theorem at a concrete graph and package. -/
theorem add_package_to_graph_dedups_dependency_nodes_witness :
    (add_package_to_graph gW pkgW).1.nodes.take (gW.nodes.length + 1)
        = gW.nodes ++ [(pkgW.name, pkgW.url)]
      ∧ (add_package_to_graph gW pkgW).1.nodes.count (("a"), ("u"))
        = (gW.nodes ++ [(pkgW.name, pkgW.url)]).count (("a"), ("u")) :=
  add_package_to_graph_dedups_dependency_nodes gW pkgW (("a"), ("u")) (by decide)

/-! ## Dependency selection (`list_dependencies`) -/

theorem filterDependencies_eq_filter (deps : List DepInfo) (optional : Bool) :
    filterDependencies deps optional
      = (deps.filter (fun d => d.optional == optional)).map (fun d => (d.crateId, d.req)) := by
  induction deps with
  | nil => rfl
  | cons dep rest ih =>
    cases hdo : dep.optional <;> cases optional <;>
      simp [filterDependencies, hdo, List.filter_cons, ih]

/-- C4: `list_dependencies` keeps a declared dependency exactly when the
dependency's own `optional` flag equals the selection mode, so the
`optional = true` and `optional = false` selections over the same declared
list are complementary: each declared entry lands in exactly one of them, and
together they are a permutation of the full declared list (projected to
`(crate_id, req)` tuples). -/
theorem list_dependencies_optional_partition :
    ∀ (deps : List DepInfo) (optional : Bool),
      filterDependencies deps optional
          = (deps.filter (fun d => d.optional == optional)).map (fun d => (d.crateId, d.req))
      ∧ List.Perm
          (filterDependencies deps true ++ filterDependencies deps false)
          (deps.map (fun d => (d.crateId, d.req)))
      ∧ ∀ (reg : Registry) (crate_info : CrateData),
          reg.crateDependencies crate_info.id crate_info.maxVersion = Except.ok deps →
          list_dependencies reg crate_info optional
            = Except.ok (filterDependencies deps optional) := by
  intro deps optional
  refine ⟨filterDependencies_eq_filter deps optional, ?_, ?_⟩
  · rw [filterDependencies_eq_filter, filterDependencies_eq_filter]
    have hq : (fun d : DepInfo => d.optional == false) = (fun d => !(d.optional == true)) := by
      funext d; cases d.optional <;> rfl
    rw [hq, ← List.map_append]
    exact (List.filter_append_perm _ deps).map _
  · intro reg crate_info hok
    simp [list_dependencies, hok]

/-- Witness for C4 at the concrete cyclic test registry. -/
theorem list_dependencies_optional_partition_witness :
    filterDependencies [depOnB] false
        = ([depOnB].filter (fun d => d.optional == false)).map (fun d => (d.crateId, d.req))
      ∧ List.Perm
          (filterDependencies [depOnB] true ++ filterDependencies [depOnB] false)
          ([depOnB].map (fun d => (d.crateId, d.req)))
      ∧ list_dependencies cycleRegistry crateA false
          = Except.ok (filterDependencies [depOnB] false) := by
  obtain ⟨h1, h2, h3⟩ := list_dependencies_optional_partition [depOnB] false
  exact ⟨h1, h2, h3 cycleRegistry crateA rfl⟩

/-! ## Tree printing (`print_dependencies_recursive`) -/

/-- C8: at a node reached with `depth < max_depth` whose index is newly marked
visited, one line is emitted exactly when the package name was not yet in the
printed set or `max_depth > 2`; the emitted line is indented by `depth * 3`
spaces and carries ANSI color 32 at even depths and 37 at odd depths. -/
theorem print_dependencies_recursive_line_emission
    (g : DependencyGraph) (package : Package) (depth max_depth : Nat)
    (v : List Nat) (p : List String) (i : Nat)
    (hdepth : depth < max_depth)
    (hfind : findNodeIndex g.nodes (package.name, package.url) = some i)
    (hv : i ∉ v) :
    ((package.name ∈ p ∧ max_depth ≤ 2) →
        (print_dependencies_recursive g package depth max_depth v p).1 = [])
    ∧ ((package.name ∉ p ∨ 2 < max_depth) →
        ∃ rest,
          (print_dependencies_recursive g package depth max_depth v p).1
            = OutLine.dep (depth * 3) (if depth % 2 = 0 then 32 else 37)
                package.name package.url :: rest) := by
  rw [print_dependencies_recursive, dif_pos hdepth, hfind]
  simp only
  rw [if_neg hv]
  constructor
  · intro hsupp
    rw [if_neg ?_]
    · intro hcond
      rcases hcond with hnp | hgt
      · exact hnp hsupp.1
      · omega
  · intro hcond
    rw [if_pos hcond]
    rcases hpl : print_list g
        (fun pkg v1 p1 => print_dependencies_recursive g pkg (depth + 1) max_depth v1 p1)
        (dfsOrder g i)
        (i :: v)
        (if package.name ∈ p then p else package.name :: p) with ⟨outs, v2, p2⟩
    exact ⟨outs, rfl⟩

/-- Witness for C8 at a concrete one-node graph. -/
theorem print_dependencies_recursive_line_emission_witness :
    ((pkgW.name ∈ ([] : List String) ∧ 2 ≤ 2) →
        (print_dependencies_recursive gW pkgW 0 2 [] []).1 = [])
    ∧ ((pkgW.name ∉ ([] : List String) ∨ 2 < 2) →
        ∃ rest,
          (print_dependencies_recursive gW pkgW 0 2 [] []).1
            = OutLine.dep (0 * 3) (if 0 % 2 = 0 then 32 else 37) pkgW.name pkgW.url :: rest) :=
  print_dependencies_recursive_line_emission gW pkgW 0 2 [] [] 0
    (by decide) (by decide) (by decide)

/-- C10: when the package name is already printed and `max_depth ≤ 2`, the
suppression branch skips the entire DFS expansion, not just the output line:
the call emits nothing, marks only this node index visited, and leaves the
printed-name set unchanged, so nothing reachable through this node is visited
or printed in this branch. -/
theorem print_dependencies_recursive_suppression_skips_walk
    (g : DependencyGraph) (package : Package) (depth max_depth : Nat)
    (v : List Nat) (p : List String) (i : Nat)
    (hdepth : depth < max_depth)
    (hfind : findNodeIndex g.nodes (package.name, package.url) = some i)
    (hv : i ∉ v)
    (hp : package.name ∈ p)
    (hm : max_depth ≤ 2) :
    print_dependencies_recursive g package depth max_depth v p = ([], i :: v, p) := by
  rw [print_dependencies_recursive, dif_pos hdepth, hfind]
  simp only
  rw [if_neg hv, if_pos hp, if_neg ?_]
  intro hcond
  rcases hcond with hnp | hgt
  · exact hnp hp
  · omega

/-- Witness for C10 at a concrete one-node graph with the name already
printed. -/
theorem print_dependencies_recursive_suppression_skips_walk_witness :
    print_dependencies_recursive gW pkgW 0 2 [] [("a")] = ([], 0 :: [], [("a")]) :=
  print_dependencies_recursive_suppression_skips_walk gW pkgW 0 2 [] [("a")] 0
    (by decide) (by decide) (by decide) (by decide) (by decide)

/-! ## Fetcher invariant machinery -/

theorem countFetch_append (a b : List RegCall) (name : String) :
    countFetch (a ++ b) name = countFetch a name + countFetch b name := by
  induction a with
  | nil => simp [countFetch]
  | cons c rest ih =>
    cases c with
    | getCrate n r => simp [countFetch, ih, Nat.add_assoc]
    | listDeps i ver r => simp [countFetch, ih]

theorem fetchInv_refl (st : FetchState) : FetchInv st FetchRes.ok st := by
  refine ⟨[], by simp, ⟨[], by simp⟩, ⟨[], by simp⟩, fun k v h => h, ?_, ?_, ?_, ?_⟩
  · intro name; simp [countFetch]
  · intro name v _; simp [countFetch]
  · intro _
    constructor
    · intro c hc; simp at hc
    · intro name h; simp [countFetch] at h
  · intro e h; exact FetchRes.noConfusion h

theorem fetchInv_comp {st st1 st2 : FetchState} {status : FetchRes}
    (h1 : FetchInv st FetchRes.ok st1) (h2 : FetchInv st1 status st2) :
    FetchInv st status st2 := by
  obtain ⟨n1, hc1, ⟨ns1, hn1⟩, ⟨es1, he1⟩, hlk1, hle1, hcz1, hok1, herr1⟩ := h1
  obtain ⟨n2, hc2, ⟨ns2, hn2⟩, ⟨es2, he2⟩, hlk2, hle2, hcz2, hok2, herr2⟩ := h2
  have hone := hok1 rfl
  refine ⟨n1 ++ n2, ?_, ⟨ns1 ++ ns2, ?_⟩, ⟨es1 ++ es2, ?_⟩, ?_, ?_, ?_, ?_, ?_⟩
  · rw [hc2, hc1, List.append_assoc]
  · rw [hn2, hn1, List.append_assoc]
  · rw [he2, he1, List.append_assoc]
  · exact fun k v h => hlk2 k v (hlk1 k v h)
  · intro name
    rw [countFetch_append]
    by_cases h0 : countFetch n1 name = 0
    · rw [h0]; simpa using hle2 name
    · have h1' : countFetch n1 name = 1 := by have := hle1 name; omega
      obtain ⟨v, hv⟩ := hone.2 name h1'
      have := hcz2 name v hv
      omega
  · intro name v hv
    rw [countFetch_append, hcz1 name v hv, hcz2 name v (hlk1 name v hv)]
  · intro hst
    obtain ⟨hcl2, hfv2⟩ := hok2 hst
    constructor
    · intro c hc
      rcases List.mem_append.mp hc with h | h
      · exact hone.1 c h
      · exact hcl2 c h
    · intro name hcount
      rw [countFetch_append] at hcount
      by_cases h0 : countFetch n1 name = 0
      · exact hfv2 name (by omega)
      · have h1' : countFetch n1 name = 1 := by have := hle1 name; omega
        obtain ⟨v, hv⟩ := hone.2 name h1'
        exact ⟨v, hlk2 name v hv⟩
  · intro e hst
    obtain ⟨pre, c, hpc, hce, hclean⟩ := herr2 e hst
    refine ⟨n1 ++ pre, c, ?_, hce, ?_⟩
    · rw [hpc, List.append_assoc]
    · intro x hx
      rcases List.mem_append.mp hx with h | h
      · exact hone.1 x h
      · exact hclean x h

/-- A step that only appends to the graph (no calls, no cache change)
satisfies the invariant with success status. -/
theorem fetchInv_of_graph_append (st : FetchState) (g1 : DependencyGraph)
    (hg : (∃ ns, g1.nodes = st.graph.nodes ++ ns) ∧ ∃ es, g1.edges = st.graph.edges ++ es) :
    FetchInv st FetchRes.ok (FetchState.mk st.visited g1 st.calls) := by
  refine ⟨[], by simp, hg.1, hg.2, fun k v h => h, ?_, ?_, ?_, ?_⟩
  · intro name; simp [countFetch]
  · intro name v _; simp [countFetch]
  · intro _
    constructor
    · intro c hc; simp at hc
    · intro name h; simp [countFetch] at h
  · intro e h; exact FetchRes.noConfusion h

/-- The dependency loop preserves the fetcher invariant, given that each
single child fetch does. -/
theorem fetch_children_inv
    (fetch_one : String × String → FetchState → Except RegError (Option Package) × FetchState)
    (hone : ∀ d s, FetchInv s (resStatus (fetch_one d s).1) (fetch_one d s).2)
    (node_index : Nat) :
    ∀ (deps : List (String × String)) (st : FetchState),
      FetchInv st (resStatus (fetch_children fetch_one node_index deps st).1)
        (fetch_children fetch_one node_index deps st).2 := by
  intro deps
  induction deps with
  | nil => intro st; exact fetchInv_refl st
  | cons dep rest ih =>
    intro st
    have h1 := hone dep st
    rcases hfo : fetch_one dep st with ⟨r1, st1⟩
    rw [hfo] at h1
    cases r1 with
    | error e =>
      simp only [fetch_children, hfo]
      exact h1
    | ok child =>
      cases child with
      | none =>
        simp only [fetch_children, hfo]
        exact fetchInv_comp h1 (ih st1)
      | some c =>
        simp only [fetch_children, hfo]
        rcases hap : add_package_to_graph st1.graph c with ⟨g2, ci⟩
        simp only [hap]
        have h2 : FetchInv st1 FetchRes.ok
            (FetchState.mk st1.visited (add_dependency_edge g2 node_index ci) st1.calls) := by
          apply fetchInv_of_graph_append
          obtain ⟨ns, es, hns, hes, _⟩ := add_package_to_graph_append st1.graph c
          rw [hap] at hns hes
          constructor
          · exact ⟨[(c.name, c.url)] ++ ns, by
              simp only [add_dependency_edge]
              rw [hns, List.append_assoc]⟩
          · exact ⟨es ++ [(node_index, ci)], by
              simp only [add_dependency_edge]
              rw [hes, List.append_assoc]⟩
        exact fetchInv_comp h1 (fetchInv_comp h2 (ih _))

/-- Invariant for the branch in which `get_crate` itself fails. -/
theorem fetchInv_getCrate_error (st : FetchState) (package_name : String × String)
    (e : RegError)
    (hcl : cacheLookup st.visited package_name.1 = none) :
    FetchInv st (FetchRes.fail e)
      (FetchState.mk st.visited st.graph
        (st.calls ++ [RegCall.getCrate package_name.1 (Except.error e)])) := by
  refine ⟨[RegCall.getCrate package_name.1 (Except.error e)], rfl,
    ⟨[], by simp⟩, ⟨[], by simp⟩, fun k v h => h, ?_, ?_, ?_, ?_⟩
  · intro name; simp only [countFetch]; split <;> omega
  · intro name v hv
    simp only [countFetch]
    rw [if_neg ?_]
    intro h
    rw [h] at hcl
    rw [hcl] at hv
    exact Option.noConfusion hv
  · intro h; exact FetchRes.noConfusion h
  · intro e' h
    cases h
    refine ⟨[], RegCall.getCrate package_name.1 (Except.error e), by simp, rfl, ?_⟩
    intro c hc; simp at hc

/-- Invariant for the branch in which `get_crate` succeeds but
`crate_dependencies` fails. -/
theorem fetchInv_listDeps_error (st : FetchState) (package_name : String × String)
    (crate_info : CrateData) (e : RegError)
    (hcl : cacheLookup st.visited package_name.1 = none) :
    FetchInv st (FetchRes.fail e)
      (FetchState.mk st.visited st.graph
        (st.calls ++ [RegCall.getCrate package_name.1 (Except.ok crate_info)]
          ++ [RegCall.listDeps crate_info.id crate_info.maxVersion (Except.error e)])) := by
  refine ⟨[RegCall.getCrate package_name.1 (Except.ok crate_info),
    RegCall.listDeps crate_info.id crate_info.maxVersion (Except.error e)], by simp,
    ⟨[], by simp⟩, ⟨[], by simp⟩, fun k v h => h, ?_, ?_, ?_, ?_⟩
  · intro name; simp only [countFetch]; split <;> omega
  · intro name v hv
    simp only [countFetch]
    rw [if_neg ?_]
    · intro h
      rw [h] at hcl
      rw [hcl] at hv
      exact Option.noConfusion hv
  · intro h; exact FetchRes.noConfusion h
  · intro e' h
    cases h
    refine ⟨[RegCall.getCrate package_name.1 (Except.ok crate_info)],
      RegCall.listDeps crate_info.id crate_info.maxVersion (Except.error e), by simp, rfl, ?_⟩
    intro c hc
    simp at hc
    rw [hc]
    rfl

/-- Invariant for the successful prefix of an uncached fetch: two successful
registry calls recorded, the built package inserted at the front of the cache,
and the graph only extended. -/
theorem fetchInv_prefix (st : FetchState) (package_name : String × String)
    (crate_info : CrateData) (raw_deps : List DepInfo) (package : Package)
    (g1 : DependencyGraph)
    (hcl : cacheLookup st.visited package_name.1 = none)
    (hg : (∃ ns, g1.nodes = st.graph.nodes ++ ns) ∧ (∃ es, g1.edges = st.graph.edges ++ es)) :
    FetchInv st FetchRes.ok
      (FetchState.mk ((package_name.1, package) :: st.visited) g1
        (st.calls ++ [RegCall.getCrate package_name.1 (Except.ok crate_info)]
          ++ [RegCall.listDeps crate_info.id crate_info.maxVersion (Except.ok raw_deps)])) := by
  have hcount : ∀ name,
      countFetch [RegCall.getCrate package_name.1 (Except.ok crate_info),
        RegCall.listDeps crate_info.id crate_info.maxVersion (Except.ok raw_deps)] name
        = if package_name.1 = name then 1 else 0 := by
    intro name; simp only [countFetch]; split <;> rfl
  refine ⟨[RegCall.getCrate package_name.1 (Except.ok crate_info),
    RegCall.listDeps crate_info.id crate_info.maxVersion (Except.ok raw_deps)], by simp,
    hg.1, hg.2, ?_, ?_, ?_, ?_, ?_⟩
  · intro k v hv
    simp only [cacheLookup]
    rw [if_neg ?_]
    · exact hv
    · intro h
      rw [h] at hcl
      rw [hcl] at hv
      exact Option.noConfusion hv
  · intro name; rw [hcount]; split <;> omega
  · intro name v hv
    rw [hcount]
    rw [if_neg ?_]
    intro h
    rw [h] at hcl
    rw [hcl] at hv
    exact Option.noConfusion hv
  · intro _
    constructor
    · intro c hc
      rcases List.mem_cons.mp hc with h | h
      · rw [h]; rfl
      · simp at h; rw [h]; rfl
    · intro name hn
      rw [hcount] at hn
      by_cases h : package_name.1 = name
      · refine ⟨package, ?_⟩
        simp only [cacheLookup]
        rw [if_pos h]
      · rw [if_neg h] at hn
        exact absurd hn (by omega)
  · intro e h; exact FetchRes.noConfusion h

/-- Master invariant of the fetcher: every `fetch_package_info` call relates
its input and output state by `FetchInv`. -/
theorem fetch_package_info_inv (reg : Registry) (optional : Bool) :
    ∀ (depth : Nat) (package_name : String × String) (st : FetchState),
      FetchInv st
        (resStatus (fetch_package_info reg optional package_name st depth).1)
        (fetch_package_info reg optional package_name st depth).2 := by
  intro depth
  induction depth using Nat.strong_induction_on with
  | _ depth ih =>
    intro package_name st
    rw [fetch_package_info]
    rcases hcl : cacheLookup st.visited package_name.1 with _ | package
    · simp only
      rcases hgc : reg.getCrate package_name.1 with e | crate_info
      · simp only
        exact fetchInv_getCrate_error st package_name e hcl
      · simp only
        rcases hcd : reg.crateDependencies crate_info.id crate_info.maxVersion with e | raw_deps
        · simp only
          exact fetchInv_listDeps_error st package_name crate_info e hcl
        · simp only
          rcases hap : add_package_to_graph st.graph
            (Package.mk package_name.1 ((crate_info.homepage).getD (""))
              (filterDependencies raw_deps optional)
              ((package_name.1).startsWith ("std"))) with ⟨g1, ni⟩
          simp only [hap]
          have hgrow : (∃ ns, g1.nodes = st.graph.nodes ++ ns)
              ∧ ∃ es, g1.edges = st.graph.edges ++ es := by
            obtain ⟨ns, es, hns, hes, _⟩ := add_package_to_graph_append st.graph
              (Package.mk package_name.1 ((crate_info.homepage).getD (""))
                (filterDependencies raw_deps optional)
                ((package_name.1).startsWith ("std")))
            rw [hap] at hns hes
            exact ⟨⟨[(package_name.1, (crate_info.homepage).getD (""))] ++ ns,
              by rw [hns, List.append_assoc]⟩, ⟨es, hes⟩⟩
          have hpre := fetchInv_prefix st package_name crate_info raw_deps
            (Package.mk package_name.1 ((crate_info.homepage).getD (""))
              (filterDependencies raw_deps optional)
              ((package_name.1).startsWith ("std"))) g1 hcl hgrow
          by_cases hd : 1 < depth
          · rw [dif_pos hd]
            have hch := fetch_children_inv
              (fun d s => fetch_package_info reg optional d s (depth - 1))
              (fun d s => ih (depth - 1) (by omega) d s) ni
              (filterDependencies raw_deps optional)
              (FetchState.mk
                ((package_name.1,
                  Package.mk package_name.1 ((crate_info.homepage).getD (""))
                    (filterDependencies raw_deps optional)
                    ((package_name.1).startsWith ("std"))) :: st.visited) g1
                (st.calls ++ [RegCall.getCrate package_name.1 (Except.ok crate_info)]
                  ++ [RegCall.listDeps crate_info.id crate_info.maxVersion
                        (Except.ok raw_deps)]))
            rcases hfc : fetch_children
                (fun d s => fetch_package_info reg optional d s (depth - 1)) ni
                (filterDependencies raw_deps optional)
                (FetchState.mk
                  ((package_name.1,
                    Package.mk package_name.1 ((crate_info.homepage).getD (""))
                      (filterDependencies raw_deps optional)
                      ((package_name.1).startsWith ("std"))) :: st.visited) g1
                  (st.calls ++ [RegCall.getCrate package_name.1 (Except.ok crate_info)]
                    ++ [RegCall.listDeps crate_info.id crate_info.maxVersion
                          (Except.ok raw_deps)])) with ⟨r5, st5⟩
            rw [hfc] at hch
            cases r5 with
            | error e =>
              simp only [hfc]
              exact fetchInv_comp hpre hch
            | ok u =>
              simp only [hfc]
              exact fetchInv_comp hpre hch
          · rw [dif_neg hd]
            exact hpre
    · simp only
      exact fetchInv_refl st

theorem startsWith_A : (("A") : String).startsWith ("std") = false := by decide

theorem startsWith_B : (("B") : String).startsWith ("std") = false := by decide

theorem fetch_cache_hit (reg : Registry) (optional : Bool)
    (package_name : String × String) (st : FetchState) (depth : Nat) (p : Package)
    (h : cacheLookup st.visited package_name.1 = some p) :
    fetch_package_info reg optional package_name st depth = (Except.ok (some p), st) := by
  rw [fetch_package_info, h]

theorem cycleRegistry_getCrate_A : cycleRegistry.getCrate ("A") = Except.ok crateA := rfl

theorem cycleRegistry_getCrate_B : cycleRegistry.getCrate ("B") = Except.ok crateB := rfl

theorem cycleRegistry_deps_A :
    cycleRegistry.crateDependencies ("A") ("1") = Except.ok [depOnB] := rfl

theorem cycleRegistry_deps_B :
    cycleRegistry.crateDependencies ("B") ("1") = Except.ok [depOnA] := rfl

theorem crateA_id : crateA.id = ("A") := rfl

theorem crateA_maxVersion : crateA.maxVersion = ("1") := rfl

theorem crateA_homepage : crateA.homepage = some ("urlA") := rfl

theorem crateB_id : crateB.id = ("B") := rfl

theorem crateB_maxVersion : crateB.maxVersion = ("1") := rfl

theorem crateB_homepage : crateB.homepage = some ("urlB") := rfl

theorem depOnB_crateId : depOnB.crateId = ("B") := rfl

theorem depOnB_req : depOnB.req = ("^1") := rfl

theorem depOnB_optional : depOnB.optional = false := rfl

theorem depOnA_crateId : depOnA.crateId = ("A") := rfl

theorem depOnA_req : depOnA.req = ("^1") := rfl

theorem depOnA_optional : depOnA.optional = false := rfl

theorem childrenA_one :
    fetch_children (fun p s => fetch_package_info cycleRegistry false p s 1) 0
      [(("B"), ("^1"))]
      (FetchState.mk [(("A"), Package.mk ("A") ("urlA") [(("B"), ("^1"))] false)]
        (DependencyGraph.mk [(("A"), ("urlA")), (("B"), ("^1"))] [(0, 1)])
        [RegCall.getCrate ("A") (Except.ok crateA),
         RegCall.listDeps ("A") ("1") (Except.ok [depOnB])])
      = (Except.ok (), FetchState.mk visitedBA gOuter1 cycleTrace) := by
  simp only [fetch_children]
  rw [fetch_package_info]
  simp [cacheLookup, cycleRegistry_getCrate_B, cycleRegistry_deps_B, crateB_id,
    crateB_maxVersion, crateB_homepage, depOnA_crateId, depOnA_req, depOnA_optional, filterDependencies,
    add_package_to_graph, add_dependency_nodes, add_dependency_edge, cycleTrace,
    visitedBA, gOuter1, startsWith_B, fetch_children]

theorem childrenA_succ (d : Nat) :
    fetch_children (fun p s => fetch_package_info cycleRegistry false p s (d + 2)) 0
      [(("B"), ("^1"))]
      (FetchState.mk [(("A"), Package.mk ("A") ("urlA") [(("B"), ("^1"))] false)]
        (DependencyGraph.mk [(("A"), ("urlA")), (("B"), ("^1"))] [(0, 1)])
        [RegCall.getCrate ("A") (Except.ok crateA),
         RegCall.listDeps ("A") ("1") (Except.ok [depOnB])])
      = (Except.ok (), FetchState.mk visitedBA gOuter2 cycleTrace) := by
  simp only [fetch_children]
  rw [fetch_package_info]
  simp [cacheLookup, cycleRegistry_getCrate_B, cycleRegistry_deps_B, crateB_id,
    crateB_maxVersion, crateB_homepage, depOnA_crateId, depOnA_req, depOnA_optional, filterDependencies,
    add_package_to_graph, add_dependency_nodes, add_dependency_edge, cycleTrace,
    visitedBA, gOuter2, startsWith_B, fetch_children,
    show (1 : Nat) < d + 2 from by omega, fetch_package_info]

theorem fetchA_deep (d : Nat) :
    (fetch_package_info cycleRegistry false (("A"), ("")) initState (d + 2)).2.calls
        = cycleTrace
      ∧ (fetch_package_info cycleRegistry false (("A"), ("")) initState (d + 2)).1
        = Except.ok (some (Package.mk ("A") ("urlA") [(("B"), ("^1"))] false)) := by
  cases d with
  | zero =>
    rw [fetch_package_info]
    simp [cacheLookup, cycleRegistry_getCrate_A, cycleRegistry_deps_A, crateA_id,
      crateA_maxVersion, crateA_homepage, depOnB_crateId, depOnB_req, depOnB_optional, filterDependencies,
      add_package_to_graph, add_dependency_nodes, add_dependency_edge,
      initState, startsWith_A, childrenA_one, cycleTrace]
  | succ d' =>
    rw [fetch_package_info]
    simp [cacheLookup, cycleRegistry_getCrate_A, cycleRegistry_deps_A, crateA_id,
      crateA_maxVersion, crateA_homepage, depOnB_crateId, depOnB_req, depOnB_optional, filterDependencies,
      add_package_to_graph, add_dependency_nodes, add_dependency_edge,
      initState, startsWith_A, childrenA_succ, cycleTrace,
      show (1 : Nat) < d' + 1 + 2 from by omega]

/-- Every fetch result is either an error or `Ok(Some(_))`: the function has no
code path producing `Ok(None)`. -/
theorem fetch_package_info_result_shape (reg : Registry) (optional : Bool)
    (package_name : String × String) (st : FetchState) (depth : Nat) :
    (∃ e, (fetch_package_info reg optional package_name st depth).1 = Except.error e)
    ∨ ∃ p, (fetch_package_info reg optional package_name st depth).1
        = Except.ok (some p) := by
  rw [fetch_package_info]
  rcases hcl : cacheLookup st.visited package_name.1 with _ | p
  · simp only
    rcases hgc : reg.getCrate package_name.1 with e | crate_info
    · simp only
      exact Or.inl ⟨e, rfl⟩
    · simp only
      rcases hcd : reg.crateDependencies crate_info.id crate_info.maxVersion with e | raw_deps
      · simp only
        exact Or.inl ⟨e, rfl⟩
      · simp only
        rcases hap : add_package_to_graph st.graph
          (Package.mk package_name.1 ((crate_info.homepage).getD (""))
            (filterDependencies raw_deps optional)
            ((package_name.1).startsWith ("std"))) with ⟨g1, ni⟩
        simp only [hap]
        by_cases hd : 1 < depth
        · rw [dif_pos hd]
          rcases hfc : fetch_children
              (fun d s => fetch_package_info reg optional d s (depth - 1)) ni
              (filterDependencies raw_deps optional)
              (FetchState.mk
                ((package_name.1,
                  Package.mk package_name.1 ((crate_info.homepage).getD (""))
                    (filterDependencies raw_deps optional)
                    ((package_name.1).startsWith ("std"))) :: st.visited) g1
                (st.calls ++ [RegCall.getCrate package_name.1 (Except.ok crate_info)]
                  ++ [RegCall.listDeps crate_info.id crate_info.maxVersion
                        (Except.ok raw_deps)])) with ⟨r5, st5⟩
          cases r5 with
          | error e => exact Or.inl ⟨e, rfl⟩
          | ok u => exact Or.inr ⟨_, rfl⟩
        · rw [dif_neg hd]
          exact Or.inr ⟨_, rfl⟩
  · simp only
    exact Or.inr ⟨p, rfl⟩

/-- The fetcher never returns `Ok(None)`. -/
theorem fetch_package_info_ne_none (reg : Registry) (optional : Bool)
    (package_name : String × String) (st : FetchState) (depth : Nat) :
    (fetch_package_info reg optional package_name st depth).1 ≠ Except.ok none := by
  intro h
  rcases fetch_package_info_result_shape reg optional package_name st depth with
    ⟨e, he⟩ | ⟨p, hp⟩
  · rw [he] at h; exact Except.noConfusion h
  · rw [hp] at h; simp at h

/-- After a successful fetch, the returned package is what the final visited
cache stores under the requested name. -/
theorem fetch_package_info_ok_lookup (reg : Registry) (optional : Bool)
    (package_name : String × String) (st : FetchState) (depth : Nat) (p : Package)
    (h : (fetch_package_info reg optional package_name st depth).1 = Except.ok (some p)) :
    cacheLookup (fetch_package_info reg optional package_name st depth).2.visited
      package_name.1 = some p := by
  revert h
  rw [fetch_package_info]
  rcases hcl : cacheLookup st.visited package_name.1 with _ | q
  · simp only
    rcases hgc : reg.getCrate package_name.1 with e | crate_info
    · simp only
      intro h
      exact Except.noConfusion h
    · simp only
      rcases hcd : reg.crateDependencies crate_info.id crate_info.maxVersion with e | raw_deps
      · simp only
        intro h
        exact Except.noConfusion h
      · simp only
        rcases hap : add_package_to_graph st.graph
          (Package.mk package_name.1 ((crate_info.homepage).getD (""))
            (filterDependencies raw_deps optional)
            ((package_name.1).startsWith ("std"))) with ⟨g1, ni⟩
        simp only [hap]
        by_cases hd : 1 < depth
        · rw [dif_pos hd]
          have hch := fetch_children_inv
            (fun d s => fetch_package_info reg optional d s (depth - 1))
            (fun d s => fetch_package_info_inv reg optional (depth - 1) d s) ni
            (filterDependencies raw_deps optional)
            (FetchState.mk
              ((package_name.1,
                Package.mk package_name.1 ((crate_info.homepage).getD (""))
                  (filterDependencies raw_deps optional)
                  ((package_name.1).startsWith ("std"))) :: st.visited) g1
              (st.calls ++ [RegCall.getCrate package_name.1 (Except.ok crate_info)]
                ++ [RegCall.listDeps crate_info.id crate_info.maxVersion
                      (Except.ok raw_deps)]))
          rcases hfc : fetch_children
              (fun d s => fetch_package_info reg optional d s (depth - 1)) ni
              (filterDependencies raw_deps optional)
              (FetchState.mk
                ((package_name.1,
                  Package.mk package_name.1 ((crate_info.homepage).getD (""))
                    (filterDependencies raw_deps optional)
                    ((package_name.1).startsWith ("std"))) :: st.visited) g1
                (st.calls ++ [RegCall.getCrate package_name.1 (Except.ok crate_info)]
                  ++ [RegCall.listDeps crate_info.id crate_info.maxVersion
                        (Except.ok raw_deps)])) with ⟨r5, st5⟩
          rw [hfc] at hch
          cases r5 with
          | error e =>
            intro h
            exact Except.noConfusion h
          | ok u =>
            intro h
            simp only [Except.ok.injEq, Option.some.injEq] at h
            obtain ⟨new2, _, _, _, hlk2, _, _, _, _⟩ := hch
            apply hlk2
            rw [← h]
            simp [cacheLookup]
        · rw [dif_neg hd]
          intro h
          simp only [Except.ok.injEq, Option.some.injEq] at h
          rw [← h]
          simp [cacheLookup]
  · simp only
    intro h
    simp only [Except.ok.injEq, Option.some.injEq] at h
    rw [← h]
    exact hcl

/-- When the dependency loop completes successfully, every processed
dependency ends up cached, re-inserted as a graph node holding its
`(name, url)` weight, and linked by a "depends" edge from the parent node. -/
theorem fetch_children_edges
    (fetch_one : String × String → FetchState → Except RegError (Option Package) × FetchState)
    (hinv : ∀ d s, FetchInv s (resStatus (fetch_one d s).1) (fetch_one d s).2)
    (hlook : ∀ d s p, (fetch_one d s).1 = Except.ok (some p) →
        cacheLookup (fetch_one d s).2.visited d.1 = some p)
    (hnone : ∀ d s, (fetch_one d s).1 ≠ Except.ok none)
    (node_index : Nat) :
    ∀ (deps : List (String × String)) (st : FetchState) (u : Unit) (st5 : FetchState),
      fetch_children fetch_one node_index deps st = (Except.ok u, st5) →
      ∀ dep ∈ deps,
        ∃ c j, cacheLookup st5.visited dep.1 = some c
          ∧ (node_index, j) ∈ st5.graph.edges
          ∧ st5.graph.nodes[j]? = some (c.name, c.url) := by
  intro deps
  induction deps with
  | nil =>
    intro st u st5 _ dep hdep
    exact absurd hdep (List.not_mem_nil dep)
  | cons dep0 rest ih =>
    intro st u st5 h dep hdep
    rcases hfo : fetch_one dep0 st with ⟨r1, st1⟩
    cases r1 with
    | error e =>
      simp only [fetch_children, hfo] at h
      simp at h
    | ok child =>
      cases child with
      | none => exact absurd (by rw [hfo]) (hnone dep0 st)
      | some c =>
        simp only [fetch_children, hfo] at h
        rcases hap : add_package_to_graph st1.graph c with ⟨g2, ci⟩
        simp only [hap] at h
        have hchinv := fetch_children_inv fetch_one hinv node_index rest
          (FetchState.mk st1.visited (add_dependency_edge g2 node_index ci) st1.calls)
        rw [h] at hchinv
        obtain ⟨new2, _hc2, ⟨ns2, hn2⟩, ⟨es2, he2⟩, hlk2, _, _, _, _⟩ := hchinv
        obtain ⟨nsA, esA, hnsA, hesA, hniA⟩ := add_package_to_graph_append st1.graph c
        rw [hap] at hnsA hesA hniA
        simp only at hnsA hesA hniA
        rcases List.mem_cons.mp hdep with heq | hdeprest
        · subst heq
          have hlkc : cacheLookup st1.visited dep.1 = some c := by
            have hl := hlook dep st c (by rw [hfo])
            rw [hfo] at hl
            exact hl
          refine ⟨c, ci, hlk2 dep.1 c hlkc, ?_, ?_⟩
          · rw [he2]
            apply List.mem_append_left
            simp [add_dependency_edge]
          · rw [hn2]
            have hci_lt : ci <
                (FetchState.mk st1.visited
                  (add_dependency_edge g2 node_index ci) st1.calls).graph.nodes.length := by
              simp only [add_dependency_edge, hnsA, hniA, List.length_append,
                List.length_singleton]
              omega
            rw [List.getElem?_append_left hci_lt]
            simp only [add_dependency_edge]
            rw [hnsA, hniA, List.append_assoc]
            rw [List.getElem?_append_right (Nat.le_refl _)]
            simp
        · exact ih (FetchState.mk st1.visited (add_dependency_edge g2 node_index ci) st1.calls)
            u st5 h dep hdeprest

/-! ## Claim theorems for the fetcher -/

/-- C1: a call on a name already in the visited cache returns the cached
package immediately — no registry call, no graph or cache mutation, no
recursion (the state is returned untouched) — and consequently a whole
traversal started from a fresh state performs at most one `get_crate` network
call per unique package name (diamond dependencies fetch a shared name once). -/
theorem fetch_package_info_cache_hit_and_single_fetch :
    (∀ (reg : Registry) (optional : Bool) (package_name : String × String)
        (st : FetchState) (depth : Nat) (p : Package),
        cacheLookup st.visited package_name.1 = some p →
        fetch_package_info reg optional package_name st depth = (Except.ok (some p), st))
    ∧ ∀ (reg : Registry) (optional : Bool) (root : String × String) (depth : Nat)
        (name : String),
        countFetch (fetch_package_info reg optional root initState depth).2.calls name ≤ 1 := by
  constructor
  · intro reg optional package_name st depth p h
    exact fetch_cache_hit reg optional package_name st depth p h
  · intro reg optional root depth name
    obtain ⟨new, hc, _, _, _, hle, _, _, _⟩ :=
      fetch_package_info_inv reg optional depth root initState
    rw [hc, countFetch_append]
    have h0 : countFetch initState.calls name = 0 := rfl
    rw [h0]
    simpa using hle name

/-- Witness for C1: a concrete cache hit leaves the state untouched, and a
concrete fresh traversal fetches the root name at most once. -/
theorem fetch_package_info_cache_hit_and_single_fetch_witness :
    fetch_package_info emptyRegistry false (("a"), (""))
        (FetchState.mk [(("a"), pkgW)] (DependencyGraph.mk [] []) []) 3
      = (Except.ok (some pkgW), FetchState.mk [(("a"), pkgW)] (DependencyGraph.mk [] []) [])
    ∧ countFetch
        (fetch_package_info emptyRegistry false (("a"), ("")) initState 1).2.calls ("a") ≤ 1 :=
  ⟨fetch_package_info_cache_hit_and_single_fetch.1 emptyRegistry false (("a"), (""))
      (FetchState.mk [(("a"), pkgW)] (DependencyGraph.mk [] []) []) 3 pkgW
      (by simp [cacheLookup]),
   fetch_package_info_cache_hit_and_single_fetch.2 emptyRegistry false (("a"), ("")) 1 ("a")⟩

/-- C2: on the cyclic registry (A depends on B, B depends on A) the recursion
terminates at every depth with each name fetched at most once; at every depth
of at least 2 both A and B are fetched from the registry exactly once and the
traversal succeeds, because the package is cached before its dependencies are
recursed into and the re-entrant call is answered by the cache-hit branch
(which returns the cached package without touching the state). -/
theorem fetch_cycle_terminates_fetch_once :
    (∀ (depth : Nat) (name : String),
        countFetch
          (fetch_package_info cycleRegistry false (("A"), ("")) initState depth).2.calls
          name ≤ 1)
    ∧ (∀ d : Nat,
        countFetch
            (fetch_package_info cycleRegistry false (("A"), ("")) initState (d + 2)).2.calls
            ("A") = 1
          ∧ countFetch
              (fetch_package_info cycleRegistry false (("A"), ("")) initState (d + 2)).2.calls
              ("B") = 1
          ∧ ∃ p, (fetch_package_info cycleRegistry false (("A"), ("")) initState (d + 2)).1
              = Except.ok (some p))
    ∧ ∀ (reg : Registry) (optional : Bool) (package_name : String × String)
        (st : FetchState) (depth : Nat) (p : Package),
        cacheLookup st.visited package_name.1 = some p →
        fetch_package_info reg optional package_name st depth = (Except.ok (some p), st) := by
  refine ⟨?_, ?_, ?_⟩
  · intro depth name
    obtain ⟨new, hc, _, _, _, hle, _, _, _⟩ :=
      fetch_package_info_inv cycleRegistry false depth (("A"), ("")) initState
    rw [hc, countFetch_append]
    have h0 : countFetch initState.calls name = 0 := rfl
    rw [h0]
    simpa using hle name
  · intro d
    obtain ⟨hcalls, hres⟩ := fetchA_deep d
    rw [hcalls]
    exact ⟨by decide, by decide, ⟨_, hres⟩⟩
  · intro reg optional package_name st depth p h
    exact fetch_cache_hit reg optional package_name st depth p h

/-- Witness for C2 at depth 2 and at a concrete cache hit. -/
theorem fetch_cycle_terminates_fetch_once_witness :
    countFetch
        (fetch_package_info cycleRegistry false (("A"), ("")) initState (0 + 2)).2.calls
        ("A") = 1
      ∧ fetch_package_info emptyRegistry false (("a"), (""))
          (FetchState.mk [(("a"), pkgW)] (DependencyGraph.mk [] []) []) 2
        = (Except.ok (some pkgW),
           FetchState.mk [(("a"), pkgW)] (DependencyGraph.mk [] []) []) :=
  ⟨(fetch_cycle_terminates_fetch_once.2.1 0).1,
   fetch_cycle_terminates_fetch_once.2.2 emptyRegistry false (("a"), (""))
     (FetchState.mk [(("a"), pkgW)] (DependencyGraph.mk [] []) []) 2 pkgW
     (by simp [cacheLookup])⟩

/-- C6 (the code at the claimed failing input): on a registry that does not
know the requested name, `fetch_package_info` propagates the not-found
condition as `Err` — it does not return `Ok(None)`; indeed no code path of the
fetcher can produce `Ok(None)`, so the `Ok(None)`/"package not found" branch
of `visualize_dependency_tree` is unreachable. -/
theorem fetch_not_found_returns_error :
    fetch_package_info emptyRegistry false (("serde"), ("")) initState 2
        = (Except.error (RegError.notFound ("serde")),
           FetchState.mk [] (DependencyGraph.mk [] [])
             [RegCall.getCrate ("serde") (Except.error (RegError.notFound ("serde")))])
      ∧ ∀ (reg : Registry) (optional : Bool) (package_name : String × String)
          (st : FetchState) (depth : Nat),
          (∃ e, (fetch_package_info reg optional package_name st depth).1 = Except.error e)
          ∨ ∃ p, (fetch_package_info reg optional package_name st depth).1
              = Except.ok (some p) := by
  constructor
  · rw [fetch_package_info]
    rfl
  · exact fetch_package_info_result_shape

/-- Concrete failing traversal: A resolves, its dependency B fails its
metadata lookup, and the error surfaces after exactly three registry calls. -/
theorem failRegistry_run :
    fetch_package_info failRegistry false (("A"), ("")) initState 2
      = (Except.error (RegError.notFound ("B")),
         FetchState.mk [(("A"), Package.mk ("A") ("urlA") [(("B"), ("^1"))] false)]
           (DependencyGraph.mk [(("A"), ("urlA")), (("B"), ("^1"))] [(0, 1)])
           [RegCall.getCrate ("A") (Except.ok crateA),
            RegCall.listDeps ("A") ("1") (Except.ok [depOnB]),
            RegCall.getCrate ("B") (Except.error (RegError.notFound ("B")))]) := by
  rw [fetch_package_info]
  simp [cacheLookup, failRegistry, crateA, crateA_id, crateA_maxVersion, crateA_homepage,
    depOnB_crateId, depOnB_req, depOnB_optional, depOnB, filterDependencies,
    add_package_to_graph, add_dependency_nodes, add_dependency_edge, initState,
    startsWith_A, fetch_children, fetch_package_info]

/-- C5: a failed registry call aborts the whole traversal immediately — the
result is `Err`, the appended call trace ends exactly at the failing call with
every earlier call successful and no call after it (no retry) — a successful
traversal's appended trace contains no failed call, and on a failed fetch
`visualize_dependency_tree` propagates the error and prints nothing at all to
standard output (the header and tree are printed only after fetch succeeds). -/
theorem fetch_error_propagates_no_output :
    (∀ (reg : Registry) (optional : Bool) (package_name : String × String)
        (st : FetchState) (depth : Nat) (e : RegError),
        (fetch_package_info reg optional package_name st depth).1 = Except.error e →
        ∃ new, (fetch_package_info reg optional package_name st depth).2.calls
            = st.calls ++ new ∧ endsWithError new e)
    ∧ (∀ (reg : Registry) (optional : Bool) (package_name : String × String)
        (st : FetchState) (depth : Nat) (a : Option Package),
        (fetch_package_info reg optional package_name st depth).1 = Except.ok a →
        ∃ new, (fetch_package_info reg optional package_name st depth).2.calls
            = st.calls ++ new ∧ cleanCalls new)
    ∧ ∀ (reg : Registry) (package_name : String) (depth : Nat) (optional : Bool)
        (e : RegError),
        (fetch_dependency_tree reg package_name depth optional).1 = Except.error e →
        visualize_dependency_tree reg package_name depth optional = (Except.error e, []) := by
  refine ⟨?_, ?_, ?_⟩
  · intro reg optional package_name st depth e h
    obtain ⟨new, hc, _, _, _, _, _, _, herr⟩ :=
      fetch_package_info_inv reg optional depth package_name st
    rw [h] at herr
    exact ⟨new, hc, herr e rfl⟩
  · intro reg optional package_name st depth a h
    obtain ⟨new, hc, _, _, _, _, _, hok, _⟩ :=
      fetch_package_info_inv reg optional depth package_name st
    rw [h] at hok
    exact ⟨new, hc, (hok rfl).1⟩
  · intro reg package_name depth optional e h
    rcases hf : fetch_dependency_tree reg package_name depth optional with ⟨r, stf⟩
    rw [hf] at h
    simp only at h
    subst h
    simp [visualize_dependency_tree, hf]

/-- Witness for C5 on `failRegistry`: the trace of the aborted run ends at the
failing call and the pipeline prints nothing. -/
theorem fetch_error_propagates_no_output_witness :
    (∃ new, (fetch_package_info failRegistry false (("A"), ("")) initState 2).2.calls
        = initState.calls ++ new ∧ endsWithError new (RegError.notFound ("B")))
    ∧ visualize_dependency_tree failRegistry ("A") 2 false
        = (Except.error (RegError.notFound ("B")), []) :=
  ⟨fetch_error_propagates_no_output.1 failRegistry false (("A"), ("")) initState 2
      (RegError.notFound ("B")) (by rw [failRegistry_run]),
   fetch_error_propagates_no_output.2.2 failRegistry ("A") 2 false
     (RegError.notFound ("B"))
     (by simp [fetch_dependency_tree, failRegistry_run])⟩

/-- C7: for an uncached name whose two registry calls succeed, the fetcher at
`depth ≤ 1` performs no recursion at all — the result is exactly the built
package, the cache gains only this name, the graph gains only this package's
insertion, and the trace gains exactly the two calls — while at `depth > 1` it
runs the dependency loop over the filtered dependencies with budget
`depth - 1`, and on success every filtered dependency is cached and linked by
a directed "depends" edge from this package's node to a node carrying the
child's `(name, url)` weight. -/
theorem fetch_package_info_depth_behavior :
    ∀ (reg : Registry) (optional : Bool) (package_name : String × String)
      (st : FetchState) (depth : Nat) (crate_info : CrateData) (raw_deps : List DepInfo),
      cacheLookup st.visited package_name.1 = none →
      reg.getCrate package_name.1 = Except.ok crate_info →
      reg.crateDependencies crate_info.id crate_info.maxVersion = Except.ok raw_deps →
      (depth ≤ 1 →
        fetch_package_info reg optional package_name st depth
          = (Except.ok (some (builtPackage package_name crate_info raw_deps optional)),
             FetchState.mk
               ((package_name.1, builtPackage package_name crate_info raw_deps optional)
                 :: st.visited)
               (add_package_to_graph st.graph
                 (builtPackage package_name crate_info raw_deps optional)).1
               (st.calls ++ [RegCall.getCrate package_name.1 (Except.ok crate_info)]
                 ++ [RegCall.listDeps crate_info.id crate_info.maxVersion
                       (Except.ok raw_deps)])))
      ∧ (1 < depth →
          fetch_package_info reg optional package_name st depth
            = (match
                 fetch_children
                   (fun d s => fetch_package_info reg optional d s (depth - 1))
                   (add_package_to_graph st.graph
                     (builtPackage package_name crate_info raw_deps optional)).2
                   (filterDependencies raw_deps optional)
                   (FetchState.mk
                     ((package_name.1, builtPackage package_name crate_info raw_deps optional)
                       :: st.visited)
                     (add_package_to_graph st.graph
                       (builtPackage package_name crate_info raw_deps optional)).1
                     (st.calls ++ [RegCall.getCrate package_name.1 (Except.ok crate_info)]
                       ++ [RegCall.listDeps crate_info.id crate_info.maxVersion
                             (Except.ok raw_deps)])) with
               | (Except.error e, st5) => (Except.error e, st5)
               | (Except.ok _, st5) =>
                 (Except.ok (some (builtPackage package_name crate_info raw_deps optional)),
                  st5)))
      ∧ (1 < depth →
          ∀ (a : Option Package) (st5 : FetchState),
            fetch_package_info reg optional package_name st depth = (Except.ok a, st5) →
            ∀ dep ∈ filterDependencies raw_deps optional,
              ∃ c j, cacheLookup st5.visited dep.1 = some c
                ∧ ((add_package_to_graph st.graph
                      (builtPackage package_name crate_info raw_deps optional)).2, j)
                    ∈ st5.graph.edges
                ∧ st5.graph.nodes[j]? = some (c.name, c.url)) := by
  intro reg optional package_name st depth crate_info raw_deps hcl hgc hcd
  have h2 : 1 < depth →
      fetch_package_info reg optional package_name st depth
        = (match
             fetch_children
               (fun d s => fetch_package_info reg optional d s (depth - 1))
               (add_package_to_graph st.graph
                 (builtPackage package_name crate_info raw_deps optional)).2
               (filterDependencies raw_deps optional)
               (FetchState.mk
                 ((package_name.1, builtPackage package_name crate_info raw_deps optional)
                   :: st.visited)
                 (add_package_to_graph st.graph
                   (builtPackage package_name crate_info raw_deps optional)).1
                 (st.calls ++ [RegCall.getCrate package_name.1 (Except.ok crate_info)]
                   ++ [RegCall.listDeps crate_info.id crate_info.maxVersion
                         (Except.ok raw_deps)])) with
           | (Except.error e, st5) => (Except.error e, st5)
           | (Except.ok _, st5) =>
             (Except.ok (some (builtPackage package_name crate_info raw_deps optional)),
              st5)) := by
    intro hd
    rw [fetch_package_info]
    simp only [hcl, hgc, hcd, builtPackage]
    rw [dif_pos hd]
  refine ⟨?_, h2, ?_⟩
  · intro hd1
    rw [fetch_package_info]
    simp only [hcl, hgc, hcd, builtPackage]
    rw [dif_neg (by omega)]
  · intro hd a st5 h
    rw [h2 hd] at h
    rcases hfc : fetch_children
        (fun d s => fetch_package_info reg optional d s (depth - 1))
        (add_package_to_graph st.graph
          (builtPackage package_name crate_info raw_deps optional)).2
        (filterDependencies raw_deps optional)
        (FetchState.mk
          ((package_name.1, builtPackage package_name crate_info raw_deps optional)
            :: st.visited)
          (add_package_to_graph st.graph
            (builtPackage package_name crate_info raw_deps optional)).1
          (st.calls ++ [RegCall.getCrate package_name.1 (Except.ok crate_info)]
            ++ [RegCall.listDeps crate_info.id crate_info.maxVersion
                  (Except.ok raw_deps)])) with ⟨r5, st5'⟩
    rw [hfc] at h
    cases r5 with
    | error e => simp at h
    | ok u =>
      simp only [Prod.mk.injEq] at h
      intro dep hdep
      have hedges := fetch_children_edges
        (fun d s => fetch_package_info reg optional d s (depth - 1))
        (fun d s => fetch_package_info_inv reg optional (depth - 1) d s)
        (fun d s p hp => fetch_package_info_ok_lookup reg optional d s (depth - 1) p hp)
        (fun d s => fetch_package_info_ne_none reg optional d s (depth - 1))
        (add_package_to_graph st.graph
          (builtPackage package_name crate_info raw_deps optional)).2
        (filterDependencies raw_deps optional)
        (FetchState.mk
          ((package_name.1, builtPackage package_name crate_info raw_deps optional)
            :: st.visited)
          (add_package_to_graph st.graph
            (builtPackage package_name crate_info raw_deps optional)).1
          (st.calls ++ [RegCall.getCrate package_name.1 (Except.ok crate_info)]
            ++ [RegCall.listDeps crate_info.id crate_info.maxVersion
                  (Except.ok raw_deps)]))
        u st5' hfc dep hdep
      rw [← h.2]
      exact hedges

/-- Witness for C7 at a concrete uncached fetch with depth 1 (no recursion). -/
theorem fetch_package_info_depth_behavior_witness :
    fetch_package_info cycleRegistry false (("A"), ("")) initState 1
      = (Except.ok (some (builtPackage (("A"), ("")) crateA [depOnB] false)),
         FetchState.mk
           [(("A"), builtPackage (("A"), ("")) crateA [depOnB] false)]
           (add_package_to_graph initState.graph
             (builtPackage (("A"), ("")) crateA [depOnB] false)).1
           (initState.calls ++ [RegCall.getCrate ("A") (Except.ok crateA)]
             ++ [RegCall.listDeps ("A") ("1") (Except.ok [depOnB])])) :=
  (fetch_package_info_depth_behavior cycleRegistry false (("A"), ("")) initState 1
      crateA [depOnB] (by rfl) (by rfl) (by rfl)).1 (by omega)

/-- C9: for any crate with an empty dependency list, fetching through the
pipeline with `levels = 1` (hence fetch depth and print `max_depth` equal to 2
after the command line's `+1` adjustment) prints exactly one tree line for the
root and nothing else: the DFS from the root node yields the start node itself
first, but that re-visit is stopped by the visited-node check rather than
producing a second line. -/
theorem pipeline_no_deps_single_line (name : String) (hp : Option String) :
    fetch_dependency_tree (singleRegistry name hp) name 2 false
        = (Except.ok (some (Package.mk name (hp.getD ("")) [] (name.startsWith ("std")))),
           FetchState.mk
             [(name, Package.mk name (hp.getD ("")) [] (name.startsWith ("std")))]
             (DependencyGraph.mk [(name, hp.getD (""))] [])
             [RegCall.getCrate name (Except.ok (CrateData.mk name ("1.0.0") hp)),
              RegCall.listDeps name ("1.0.0") (Except.ok [])])
      ∧ print_dependencies_at_level (DependencyGraph.mk [(name, hp.getD (""))] [])
          (Package.mk name (hp.getD ("")) [] (name.startsWith ("std"))) 0 2
          = [OutLine.dep 0 32 name (hp.getD (""))]
      ∧ mainRun (singleRegistry name hp) name 1 false
          = (Except.ok (),
             [OutLine.header name, OutLine.dep 0 32 name (hp.getD (""))]) := by
  have hfetch : fetch_dependency_tree (singleRegistry name hp) name 2 false
      = (Except.ok (some (Package.mk name (hp.getD ("")) [] (name.startsWith ("std")))),
         FetchState.mk
           [(name, Package.mk name (hp.getD ("")) [] (name.startsWith ("std")))]
           (DependencyGraph.mk [(name, hp.getD (""))] [])
           [RegCall.getCrate name (Except.ok (CrateData.mk name ("1.0.0") hp)),
            RegCall.listDeps name ("1.0.0") (Except.ok [])]) := by
    rw [fetch_dependency_tree, fetch_package_info]
    simp [cacheLookup, singleRegistry, filterDependencies, add_package_to_graph,
      add_dependency_nodes, add_dependency_edge, initState, fetch_children]
  have hprint : print_dependencies_at_level (DependencyGraph.mk [(name, hp.getD (""))] [])
      (Package.mk name (hp.getD ("")) [] (name.startsWith ("std"))) 0 2
      = [OutLine.dep 0 32 name (hp.getD (""))] := by
    rw [print_dependencies_at_level, print_dependencies_recursive]
    simp [findNodeIndex, dfsOrder, dfsRun, successors, print_list,
      print_dependencies_recursive]
  refine ⟨hfetch, hprint, ?_⟩
  simp [mainRun, visualize_dependency_tree, hfetch, hprint]

/-- Witness for C9 at a concrete crate name and homepage. -/
theorem pipeline_no_deps_single_line_witness :
    mainRun (singleRegistry ("demo") (some ("hp"))) ("demo") 1 false
      = (Except.ok (),
         [OutLine.header ("demo"), OutLine.dep 0 32 ("demo") ("hp")]) :=
  (pipeline_no_deps_single_line ("demo") (some ("hp"))).2.2
